import Mathlib

/-!
# Pantry — verification of the consumption-velocity spec against the code

Shallow embedding of the Pantry grocery tracker. The frontend
(`frontend/app/*.tsx`, `frontend/lib/api.ts`) is embedded directly from the
TypeScript source; JavaScript numbers are modelled as `ℚ` (or `ℕ`/`ℤ` where
the code only ever holds integers), `localeCompare` as lexicographic string
comparison, and JavaScript's stable `Array.prototype.sort` as
`List.insertionSort` (stable) on the comparator-induced relation.

The algorithmic backend (the Consumption Velocity & Reorder Prediction
Engine of spec §4) is not part of the repository's files; definitions for
it are modelled from the spec's words and say so in their doc comments.
-/

namespace Pantry

/-- Status union type of `InventoryItem.status` in
`frontend/app/inventory/page.tsx` (and the dashboard page):
`"stocked" | "low" | "out"`. -/
inductive InvStatus
  | stocked
  | low
  | out
  deriving DecidableEq, Repr

/-- The string values admitted by the TS union type
`"stocked" | "low" | "out"` for an inventory item's status. -/
def isInventoryStatus (s : String) : Bool :=
  s == "stocked" || s == "low" || s == "out"

/-- The string literal of each status member of the TS union. -/
def InvStatus.toName : InvStatus → String
  | .stocked => "stocked"
  | .low => "low"
  | .out => "out"

/-- One entry of the `map` in `StatusBadge` (`frontend/app/inventory/page.tsx`). -/
structure BadgeStyle where
  label : String
  className : String
  deriving DecidableEq, Repr

/-- `StatusBadge`'s lookup table from `frontend/app/inventory/page.tsx`. -/
def statusBadge : InvStatus → BadgeStyle
  | .stocked => ⟨"Fresh", "bg-[#E8F3E8] text-status-fresh"⟩
  | .low => ⟨"Running Low", "bg-[#FFF3E0] text-status-low"⟩
  | .out => ⟨"Out", "bg-[#FDEAE5] text-status-out"⟩

/-- `InventoryItem` of the dashboard page (`src/unnamed/part_003`). -/
structure DashInventoryItem where
  id : Int
  name : String
  category : Option String
  status : InvStatus
  days_since_last_purchase : Option Int
  avg_interval_days : Option ℚ
  predicted_out_date : Option String
  deriving DecidableEq, Repr

/-- `Stats` of the dashboard page (`src/unnamed/part_003`). -/
structure Stats where
  total : Nat
  stocked : Nat
  low : Nat
  out : Nat
  deriving DecidableEq, Repr

/-- `computeStats` of the dashboard page (`src/unnamed/part_003`). -/
def computeStats (items : List DashInventoryItem) : Stats where
  total := items.length
  stocked := (items.filter fun i => i.status == .stocked).length
  low := (items.filter fun i => i.status == .low).length
  out := (items.filter fun i => i.status == .out).length

/-- `InventoryItem` of the inventory page (`src/unnamed/part_007`,
`frontend/app/inventory/page.tsx`). -/
structure InventoryItem where
  id : Int
  name : String
  category : Option String
  consumption_profile : Option String
  status : InvStatus
  last_purchased : Option String
  days_since_last_purchase : Option Int
  avg_interval_days : Option ℚ
  predicted_out_date : Option String
  deriving DecidableEq, Repr

/-- `PAGE_SIZE` of the inventory page (`src/unnamed/part_007`). -/
def PAGE_SIZE : Nat := 50

/-- `totalPages = Math.max(1, Math.ceil(filtered.length / PAGE_SIZE))`
(`src/unnamed/part_007`); ceiling division on `ℕ`. -/
def totalPages (filteredLen : Nat) : Nat :=
  max 1 ((filteredLen + PAGE_SIZE - 1) / PAGE_SIZE)

/-- `safePage = Math.min(page, totalPages - 1)` (`src/unnamed/part_007`).
The `page` state starts at 0 and is only ever set with
`Math.max(0, p - 1)` / `Math.min(totalPages - 1, p + 1)` / `0`, so it is
a natural number. -/
def safePage (page filteredLen : Nat) : Nat :=
  min page (totalPages filteredLen - 1)

/-- `pageStart = safePage * PAGE_SIZE` (`src/unnamed/part_007`). -/
def pageStart (page filteredLen : Nat) : Nat :=
  safePage page filteredLen * PAGE_SIZE

/-- `pageEnd = Math.min(pageStart + PAGE_SIZE, filtered.length)`
(`src/unnamed/part_007`). -/
def pageEnd (page filteredLen : Nat) : Nat :=
  min (pageStart page filteredLen + PAGE_SIZE) filteredLen

/-- `pageItems = filtered.slice(pageStart, pageEnd)` (`src/unnamed/part_007`);
`slice(a, b)` keeps the elements at indices `a ≤ i < b`. -/
def pageItems (page : Nat) (filtered : List InventoryItem) : List InventoryItem :=
  (filtered.drop (pageStart page filtered.length)).take
    (pageEnd page filtered.length - pageStart page filtered.length)

/-- `ShoppingListItem` of `frontend/lib/api.ts`, together with the optional
`category` field the shopping-list page reads through its
`ShoppingListItem & { category?: string }` cast. -/
structure ShoppingListItem where
  id : Int
  list_id : Int
  product_id : Option Int
  product_name : String
  quantity : ℚ
  checked : Bool
  source : String
  category : Option String
  deriving DecidableEq, Repr

/-- The optimistic update of `handleCheck`
(`frontend/app/shopping-list/page.tsx`):
`prev.map(i => i.id === item.id ? { ...i, checked: !i.checked } : i)`. -/
def toggleChecked (items : List ShoppingListItem) (item : ShoppingListItem) :
    List ShoppingListItem :=
  items.map fun i => if i.id = item.id then { i with checked := !i.checked } else i

/-- The failure branch of `handleCheck`
(`frontend/app/shopping-list/page.tsx`):
`prev.map(i => i.id === item.id ? { ...i, checked: item.checked } : i)`. -/
def revertChecked (items : List ShoppingListItem) (item : ShoppingListItem) :
    List ShoppingListItem :=
  items.map fun i => if i.id = item.id then { i with checked := item.checked } else i

/-- `handleCheck` (`frontend/app/shopping-list/page.tsx`): the optimistic
toggle always runs; when the backend update fails the revert map runs on the
toggled state. `success` is whether `updateShoppingListItem` succeeded. -/
def handleCheck (items : List ShoppingListItem) (item : ShoppingListItem)
    (success : Bool) : List ShoppingListItem :=
  if success then toggleChecked items item
  else revertChecked (toggleChecked items item) item

/-- The category key `(item.category ?? "Other")` used by `groupByCategory`
(`frontend/app/shopping-list/page.tsx`). -/
def itemCat (i : ShoppingListItem) : String := i.category.getD "Other"

/-- The "may come before" relation induced by a JS sort comparator of the
shape `if (fa !== fb) return cmp(fa, fb); return cmp(ga, gb);`:
`keyedLe f g a b` holds exactly when the comparator is non-positive on
`(a, b)`. `localeCompare` is modelled as the lexicographic string order. -/
def keyedLe {α κ ν : Type} [LinearOrder κ] [LinearOrder ν]
    (f : α → κ) (g : α → ν) (a b : α) : Prop :=
  if f a ≠ f b then f a < f b else g a ≤ g b

instance keyedLe.instDecidableRel {α κ ν : Type} [LinearOrder κ] [LinearOrder ν]
    (f : α → κ) (g : α → ν) : DecidableRel (keyedLe f g) := fun a b => by
  unfold keyedLe; infer_instance

instance keyedLe.instIsTotal {α κ ν : Type} [LinearOrder κ] [LinearOrder ν]
    (f : α → κ) (g : α → ν) : IsTotal α (keyedLe f g) where
  total a b := by
    unfold keyedLe
    rcases lt_trichotomy (f a) (f b) with hlt | heq | hgt
    · left; rw [if_pos (ne_of_lt hlt)]; exact hlt
    · rw [if_neg (by simp [heq]), if_neg (by simp [heq])]
      exact le_total (g a) (g b)
    · right; rw [if_pos (ne_of_lt hgt)]; exact hgt

instance keyedLe.instIsTrans {α κ ν : Type} [LinearOrder κ] [LinearOrder ν]
    (f : α → κ) (g : α → ν) : IsTrans α (keyedLe f g) where
  trans a b c hab hbc := by
    unfold keyedLe at hab hbc ⊢
    by_cases hab' : f a = f b <;> by_cases hbc' : f b = f c
    · rw [if_neg (by simp [hab'])] at hab
      rw [if_neg (by simp [hbc'])] at hbc
      rw [if_neg (by simp [hab'.trans hbc'])]
      exact le_trans hab hbc
    · rw [if_pos (by simpa using hbc')] at hbc
      have hac : f a < f c := hab'.trans_lt hbc
      rw [if_pos (ne_of_lt hac)]; exact hac
    · rw [if_pos (by simpa using hab')] at hab
      have hac : f a < f c := hab.trans_eq hbc'
      rw [if_pos (ne_of_lt hac)]; exact hac
    · rw [if_pos (by simpa using hab')] at hab
      rw [if_pos (by simpa using hbc')] at hbc
      have hac : f a < f c := lt_trans hab hbc
      rw [if_pos (ne_of_lt hac)]; exact hac

/-- The comparator of `groupByCategory`'s `[...items].sort(...)`
(`frontend/app/shopping-list/page.tsx`): category keys first, product
names on ties. -/
abbrev itemLe : ShoppingListItem → ShoppingListItem → Prop :=
  keyedLe itemCat fun i => i.product_name

/-- One loop iteration of `groupByCategory`
(`frontend/app/shopping-list/page.tsx`): the JS `Map` is an
insertion-ordered association list; a missing key is appended at the end
(`map.set(cat, [])`), an existing bucket is extended in place
(`map.get(cat)!.push(item)`). -/
def insertGrouped (m : List (String × List ShoppingListItem)) (cat : String)
    (it : ShoppingListItem) : List (String × List ShoppingListItem) :=
  match m with
  | [] => [(cat, [it])]
  | (c, l) :: rest =>
      if c = cat then (c, l ++ [it]) :: rest
      else (c, l) :: insertGrouped rest cat it

/-- `groupByCategory` (`frontend/app/shopping-list/page.tsx`): sort a copy
of the items with the category-then-name comparator (JS `sort` is stable;
`List.insertionSort` is the matching stable sort), then fill the
insertion-ordered map. -/
def groupByCategory (items : List ShoppingListItem) :
    List (String × List ShoppingListItem) :=
  (items.insertionSort itemLe).foldl (fun m it => insertGrouped m (itemCat it) it) []

/-- Initial value of the `addQty` state:
`useState(1)` (`frontend/app/shopping-list/page.tsx`). -/
def initialAddQty : ℚ := 1

/-- The quantity input's change handler
`setAddQty(Math.max(1, Number(e.target.value)))`
(`frontend/app/shopping-list/page.tsx`); the parsed numeric value of the
number input is modelled as `ℚ`. -/
def addQtyUpdate (v : ℚ) : ℚ := max 1 v

/-- Modelled from the spec: the four consumption profiles (§3). The
backend holding the Velocity Engine is not among the repository's files;
§4's contracts are embedded from the spec's words here and below. -/
inductive Profile
  | perishable
  | pantry
  | household
  | frozen
  deriving DecidableEq, Repr

/-- Modelled from the spec: the engine's derived status enum
`calibrating | stocked | low | out` (§3). -/
inductive VStatus
  | calibrating
  | stocked
  | low
  | out
  deriving DecidableEq, Repr

/-- Modelled from the spec: the profile multiplier table of §4.3. -/
def profileMultiplier : Profile → ℚ
  | .perishable => 85 / 100
  | .pantry => 12 / 10
  | .household => 15 / 10
  | .frozen => 11 / 10

/-- Modelled from the spec: the engine-relevant fields of a Product (§3). -/
structure Product where
  consumption_profile : Profile
  unit_type : Option String
  unit_quantity : Option ℚ
  times_consumed : Nat
  times_wasted : Nat
  deriving DecidableEq, Repr

/-- Modelled from the spec: a Purchase as the engine consumes it (§3);
dates are day numbers, JS numbers modelled as `ℚ`. -/
structure EnginePurchase where
  purchase_date : ℚ
  quantity : ℚ
  deriving DecidableEq, Repr

/-- Modelled from the spec: a ConsumptionEvent's disposition (§3). -/
inductive EventKind
  | consumed
  | wasted
  deriving DecidableEq, Repr

/-- Modelled from the spec: a ConsumptionEvent (§3). -/
structure ConsumptionEvent where
  kind : EventKind
  quantity : ℚ
  timestamp : ℚ
  deriving DecidableEq, Repr

/-- Modelled from the spec: the Unit Normalizer (§4.1) — with unit
metadata a purchase contributes `quantity × unit_quantity` normalized
units, without it the purchase counts as 1 normalized unit. -/
def normalize (purchase_quantity : ℚ) (unit_type : Option String)
    (unit_quantity : Option ℚ) : ℚ :=
  match unit_type, unit_quantity with
  | some _, some u => purchase_quantity * u
  | _, _ => 1

/-- Modelled from the spec: consecutive inter-purchase intervals (§4.2). -/
def computeIntervals : List ℚ → List ℚ
  | a :: b :: rest => (b - a) :: computeIntervals (b :: rest)
  | _ => []

/-- Median of a list of rationals, for §4.2's outlier dampening. -/
def median (l : List ℚ) : ℚ :=
  if l.length % 2 = 1 then (l.insertionSort (· ≤ ·)).getD (l.length / 2) 0
  else if l.length = 0 then 0
  else ((l.insertionSort (· ≤ ·)).getD (l.length / 2 - 1) 0
          + (l.insertionSort (· ≤ ·)).getD (l.length / 2) 0) / 2

/-- Walks the interval list with its index, capping each entry against
3× the median of the original list without that entry. -/
def dampenAux (orig : List ℚ) : Nat → List ℚ → List ℚ
  | _, [] => []
  | i, x :: rest =>
      (if x > 3 * median (orig.eraseIdx i) then 3 * median (orig.eraseIdx i)
        else x) :: dampenAux orig (i + 1) rest

/-- Modelled from the spec: §4.2's outlier dampening — an interval more
than 3× the median of the other intervals is capped at 3× that median. -/
def dampenOutliers (l : List ℚ) : List ℚ := dampenAux l 0 l

/-- The §4.2 recency weights for `k` chronological intervals: the most
recent (last) weighs 1, each step back halves the weight. -/
def expWeights (k : Nat) : List ℚ :=
  (List.range k).map fun i => (1 / 2 : ℚ) ^ (k - 1 - i)

/-- Modelled from the spec: §4.2's exponentially-weighted mean. -/
def weightedMean (l : List ℚ) : ℚ :=
  (List.zipWith (· * ·) (expWeights l.length) l).sum / (expWeights l.length).sum

/-- Arithmetic mean, §4.2's baseline for fewer than 4 intervals. -/
def arithMean (l : List ℚ) : ℚ := l.sum / l.length

/-- Modelled from the spec: the Interval Calculator's baseline interval
(§4.2) over ascending purchase dates: dampened intervals, exponentially
weighted when at least 4 intervals exist, arithmetic mean otherwise. -/
def baselineInterval (dates : List ℚ) : ℚ :=
  if 4 ≤ (dampenOutliers (computeIntervals dates)).length then
    weightedMean (dampenOutliers (computeIntervals dates))
  else arithMean (dampenOutliers (computeIntervals dates))

/-- Modelled from the spec: the Profile Decay Model threshold (§4.3). -/
def threshold_days (baseline_interval : ℚ) (profile : Profile) : ℚ :=
  baseline_interval * profileMultiplier profile

/-- Modelled from the spec:
`waste_ratio = times_wasted / max(1, times_wasted + times_consumed)` (§4.4). -/
def waste_ratio (p : Product) : ℚ :=
  (p.times_wasted : ℚ) / max 1 ((p.times_wasted : ℚ) + (p.times_consumed : ℚ))

/-- Modelled from the spec: the Waste Feedback Adjuster (§4.4). Above a
waste ratio of 0.3 the threshold is lengthened proportionally to the
ratio, by up to 25% (`× (1 + ratio/4)`), and the suggested-quantity
multiplier is lowered, floored at 0.5 (scenario §8: ratio 0.8 ⇒ ≈ +20%
and ≈ 0.5, realized by `max(0.5, 1 - 0.625·ratio)`). -/
def adjust (threshold : ℚ) (p : Product) : ℚ × ℚ :=
  if waste_ratio p > 3 / 10 then
    (threshold * (1 + waste_ratio p / 4), max (1 / 2) (1 - (5 / 8) * waste_ratio p))
  else (threshold, 1)

/-- Modelled from the spec: the piecewise-linear stock decay
`clamp(1 - t/threshold, 0, 1)` (§4.3). -/
def stockCurve (t threshold : ℚ) : ℚ := min (max (1 - t / threshold) 0) 1

/-- Modelled from the spec: status derivation from stock (§4.3): stocked
at `≥ 0.4`, out at `0`, low in between. -/
def statusOfStock (stock : ℚ) : VStatus :=
  if stock ≥ 4 / 10 then .stocked else if stock > 0 then .low else .out

/-- Modelled from the spec: the Velocity Engine's result record (§4.5). -/
structure VelocityResult where
  stock_estimate : Option ℚ
  status : VStatus
  predicted_out_date : Option ℚ
  deriving DecidableEq, Repr

/-- Modelled from the spec: step 1 of `recompute` (§4.5) — purchases
normalized (§4.1) as `(date, normalized units)` pairs, sorted ascending by
date. -/
def normalizedPurchases (p : Product) (purchases : List EnginePurchase) :
    List (ℚ × ℚ) :=
  (purchases.map fun q =>
      (q.purchase_date, normalize q.quantity p.unit_type p.unit_quantity)
    ).insertionSort fun a b => a.1 ≤ b.1

/-- Modelled from the spec: step 4 of `recompute` (§4.5) — profile
threshold over the baseline interval, adjusted by waste feedback. -/
def adjustedThreshold (p : Product) (purchases : List EnginePurchase) : ℚ :=
  (adjust
    (threshold_days
      (baselineInterval ((normalizedPurchases p purchases).map Prod.fst))
      p.consumption_profile)
    p).1

/-- Modelled from the spec: step 5 of `recompute` (§4.5) — the most recent
purchase date, or the most recent ConsumptionEvent timestamp, whichever is
later. -/
def lastEventDate (p : Product) (purchases : List EnginePurchase)
    (events : List ConsumptionEvent) : ℚ :=
  (events.map fun e => e.timestamp).foldl max
    (((normalizedPurchases p purchases).map Prod.fst).getLastD 0)

/-- Modelled from the spec: the Velocity Engine's `recompute` (§4.5).
Fewer than 3 normalized purchases is the terminal calibrating state;
otherwise stock decays linearly from the last event and the status and
predicted-out date derive from it. -/
def recompute (p : Product) (purchases : List EnginePurchase)
    (events : List ConsumptionEvent) (now : ℚ) : VelocityResult :=
  if (normalizedPurchases p purchases).length < 3 then ⟨none, .calibrating, none⟩
  else
    ⟨some (stockCurve (now - lastEventDate p purchases events)
        (adjustedThreshold p purchases)),
      statusOfStock (stockCurve (now - lastEventDate p purchases events)
        (adjustedThreshold p purchases)),
      some (lastEventDate p purchases events + adjustedThreshold p purchases)⟩

/-- Modelled from the spec: the per-product view the Shopping List
Generator consumes from the Velocity Engine (§4.6). -/
structure CandidateProduct where
  product_id : Int
  product_name : String
  category : Option String
  stock_estimate : ℚ
  status : VStatus
  deriving DecidableEq, Repr

/-- Modelled from the spec: the generator's order (§4.6) — ascending
`stock_estimate` (most urgent first), then category for aisle grouping. -/
abbrev candLe : CandidateProduct → CandidateProduct → Prop :=
  keyedLe (fun pr => pr.stock_estimate) fun pr => pr.category.getD ""

/-- Modelled from the spec: the Shopping List Generator's candidate
selection and ordering (§4.6) — all products with status low or out,
sorted by ascending stock estimate then category. -/
def generateCandidates (products : List CandidateProduct) :
    List CandidateProduct :=
  (products.filter fun pr =>
      pr.status == .low || pr.status == .out).insertionSort candLe

/-- Modelled from the spec: the suggested quantity (§4.6) — the most
common historical purchase quantity × the §4.4 multiplier, rounded to the
nearest purchasable unit, minimum 1. -/
def suggestedQuantity (modeQty multiplier : ℚ) : ℤ :=
  max 1 (round (modeQty * multiplier))

/-- Modelled from the spec: shopping-list regeneration (§3, §4.6) — all
`source=auto` items are replaced wholesale (delete-then-insert by the
freshly generated items); `source=manual` items are never touched. -/
def regenerate (existing fresh : List ShoppingListItem) :
    List ShoppingListItem :=
  (existing.filter fun i => !(i.source == "auto")) ++ fresh

/-- Concrete shopping-list items for the witnesses. -/
def demoItem : ShoppingListItem :=
  { id := 1, list_id := 1, product_id := none, product_name := "Milk",
    quantity := 1, checked := false, source := "manual",
    category := some "Dairy" }

def demoItem2 : ShoppingListItem :=
  { id := 2, list_id := 1, product_id := some 7, product_name := "Eggs",
    quantity := 2, checked := true, source := "auto",
    category := some "Dairy" }

/-- Concrete lists for the regeneration witness: two manual and three auto
items (the §8 regeneration scenario), and two freshly generated items. -/
def demoExisting : List ShoppingListItem :=
  [demoItem,
   { demoItem with id := 3, product_name := "Flour" },
   demoItem2,
   { demoItem2 with id := 4, product_name := "Butter" },
   { demoItem2 with id := 5, product_name := "Rice" }]

def demoFresh : List ShoppingListItem :=
  [{ demoItem2 with id := 6, product_name := "Greens" },
   { demoItem2 with id := 7, product_name := "Paper Towels" }]

/-- Concrete engine inputs for the witnesses. -/
def demoProduct : Product :=
  { consumption_profile := .pantry, unit_type := none, unit_quantity := none,
    times_consumed := 0, times_wasted := 0 }

def demoPurchases3 : List EnginePurchase :=
  [⟨0, 1⟩, ⟨7, 1⟩, ⟨14, 1⟩]

end Pantry

namespace Pantry

/-- C8 helper: the three status filters partition any dashboard item list. -/
theorem status_filter_lengths (items : List DashInventoryItem) :
    (items.filter fun i => i.status == InvStatus.stocked).length
      + (items.filter fun i => i.status == InvStatus.low).length
      + (items.filter fun i => i.status == InvStatus.out).length
      = items.length := by
  induction items with
  | nil => rfl
  | cons x xs ih =>
    cases hx : x.status <;>
      simp [List.filter_cons, hx, Nat.add_assoc, Nat.add_comm, Nat.add_left_comm, ← ih]

/-- C8: for every list of dashboard inventory items, `computeStats` returns
`total` equal to the length of the list, each of `stocked`/`low`/`out` equal
to the number of items carrying that status, and the three status counts sum
to `total`. -/
theorem computeStats_counts (items : List DashInventoryItem) :
    (computeStats items).total = items.length ∧
    (computeStats items).stocked = items.countP (fun i => i.status == .stocked) ∧
    (computeStats items).low = items.countP (fun i => i.status == .low) ∧
    (computeStats items).out = items.countP (fun i => i.status == .out) ∧
    (computeStats items).total
      = (computeStats items).stocked + (computeStats items).low
          + (computeStats items).out := by
  refine ⟨rfl, ?_, ?_, ?_, ?_⟩
  · simp [computeStats, List.countP_eq_length_filter]
  · simp [computeStats, List.countP_eq_length_filter]
  · simp [computeStats, List.countP_eq_length_filter]
  · simpa [computeStats] using (status_filter_lengths items).symm

/-- C10: for every filtered inventory list and every page index, the
inventory pagination yields at least one page, a `safePage` at most
`totalPages - 1` (and at least `0`, as a natural number), start and end
bounds that never exceed the length of the filtered list, and a displayed
slice of at most `PAGE_SIZE` items. -/
theorem pagination_bounds (page : Nat) (filtered : List InventoryItem) :
    1 ≤ totalPages filtered.length ∧
    safePage page filtered.length ≤ totalPages filtered.length - 1 ∧
    pageStart page filtered.length ≤ filtered.length ∧
    pageEnd page filtered.length ≤ filtered.length ∧
    (pageItems page filtered).length ≤ PAGE_SIZE := by
  have hstart : pageStart page filtered.length ≤ filtered.length := by
    simp only [pageStart, safePage, totalPages, PAGE_SIZE]
    omega
  refine ⟨?_, ?_, hstart, ?_, ?_⟩
  · simp [totalPages]
  · simp only [safePage]; omega
  · simp only [pageEnd]; omega
  · simp only [pageItems, List.length_take, List.length_drop, pageEnd]
    omega

/-- C9: toggling a shopping-list item's checked flag is atomic with respect
to failure. If every entry of the list that carries the toggled item's id
agrees with it on `checked` (as holds for the rendered item, which is an
element of the list), then: on backend failure `handleCheck` restores the
state exactly; on success the item's flag is flipped; and in either case no
item with a different id is modified. -/
theorem handleCheck_atomic (items : List ShoppingListItem)
    (item : ShoppingListItem)
    (h : ∀ i ∈ items, i.id = item.id → i.checked = item.checked) :
    handleCheck items item false = items ∧
    (∀ i ∈ items, i.id = item.id →
      { i with checked := !i.checked } ∈ handleCheck items item true) ∧
    (∀ i ∈ items, i.id ≠ item.id → i ∈ handleCheck items item true ∧
      i ∈ handleCheck items item false) := by
  have hfail : handleCheck items item false = items := by
    show revertChecked (toggleChecked items item) item = items
    rw [revertChecked, toggleChecked, List.map_map]
    have hpt : ∀ i ∈ items,
        (fun i : ShoppingListItem =>
            if i.id = item.id then { i with checked := item.checked } else i)
          ((fun i : ShoppingListItem =>
            if i.id = item.id then { i with checked := !i.checked } else i) i)
          = id i := by
      intro i hi
      by_cases hid : i.id = item.id
      · have hc : i.checked = item.checked := h i hi hid
        simp [if_pos hid, ← hc]
      · simp [hid]
    calc items.map _ = items.map id := List.map_congr_left hpt
      _ = items := List.map_id items
  refine ⟨hfail, ?_, ?_⟩
  · intro i hi hid
    simp only [handleCheck, if_pos rfl, toggleChecked]
    exact List.mem_map.mpr ⟨i, hi, by simp [hid]⟩
  · intro i hi hid
    constructor
    · simp only [handleCheck, if_pos rfl, toggleChecked]
      exact List.mem_map.mpr ⟨i, hi, by simp [hid]⟩
    · rw [hfail]; exact hi

/-- C5 helper: a pair of `insertGrouped m cat it` is either an untouched
pair of `m` or the (possibly new) `cat` bucket extended with `it`. -/
theorem insertGrouped_mem {m : List (String × List ShoppingListItem)}
    {cat : String} {it : ShoppingListItem} {p : String × List ShoppingListItem}
    (hp : p ∈ insertGrouped m cat it) :
    p ∈ m ∨ (p.1 = cat ∧ ∃ bl, p.2 = bl ++ [it] ∧ ((cat, bl) ∈ m ∨ bl = [])) := by
  induction m with
  | nil =>
    simp only [insertGrouped, List.mem_singleton] at hp
    subst hp
    exact Or.inr ⟨rfl, [], rfl, Or.inr rfl⟩
  | cons q rest ih =>
    obtain ⟨c, l⟩ := q
    simp only [insertGrouped] at hp
    by_cases hc : c = cat
    · subst hc
      rw [if_pos rfl] at hp
      rcases List.mem_cons.mp hp with h | h
      · subst h
        exact Or.inr ⟨rfl, l, rfl, Or.inl (List.mem_cons_self _ _)⟩
      · exact Or.inl (List.mem_cons_of_mem _ h)
    · rw [if_neg hc] at hp
      rcases List.mem_cons.mp hp with h | h
      · exact Or.inl (h ▸ List.mem_cons_self _ _)
      · rcases ih h with h' | ⟨h1, bl, h2, h3⟩
        · exact Or.inl (List.mem_cons_of_mem _ h')
        · refine Or.inr ⟨h1, bl, h2, ?_⟩
          rcases h3 with h3 | h3
          · exact Or.inl (List.mem_cons_of_mem _ h3)
          · exact Or.inr h3

/-- C5 helper: `insertGrouped` keeps the key list strictly sorted when the
inserted key is at least every key already present. -/
theorem insertGrouped_keys_sorted {m : List (String × List ShoppingListItem)}
    {cat : String} {it : ShoppingListItem}
    (hs : ((m.map Prod.fst).Sorted (· < ·)))
    (hb : ∀ p ∈ m, p.1 ≤ cat) :
    (((insertGrouped m cat it).map Prod.fst).Sorted (· < ·)) := by
  induction m with
  | nil =>
    simp only [insertGrouped, List.map_cons, List.map_nil]
    exact List.sorted_singleton _
  | cons q rest ih =>
    obtain ⟨c, l⟩ := q
    simp only [insertGrouped]
    by_cases hc : c = cat
    · rw [if_pos hc]
      simpa using hs
    · rw [if_neg hc]
      simp only [List.map_cons, List.sorted_cons] at hs ⊢
      refine ⟨?_, ih hs.2 fun p hp => hb p (List.mem_cons_of_mem _ hp)⟩
      intro k hk
      rcases List.mem_map.mp hk with ⟨p, hp, rfl⟩
      rcases insertGrouped_mem hp with h | ⟨h1, _, _, _⟩
      · exact hs.1 _ (List.mem_map_of_mem _ h)
      · rw [h1]
        exact lt_of_le_of_ne (hb (c, l) (List.mem_cons_self _ _)) hc

/-- C5 helper: `insertGrouped` adds exactly `it` to the map's contents. -/
theorem insertGrouped_flatten_perm (m : List (String × List ShoppingListItem))
    (cat : String) (it : ShoppingListItem) :
    ((insertGrouped m cat it).map Prod.snd).flatten.Perm
      ((m.map Prod.snd).flatten ++ [it]) := by
  induction m with
  | nil => simp [insertGrouped]
  | cons q rest ih =>
    obtain ⟨c, l⟩ := q
    simp only [insertGrouped]
    by_cases hc : c = cat
    · rw [if_pos hc]
      simp only [List.map_cons, List.flatten_cons, List.append_assoc]
      exact List.Perm.append_left l List.perm_append_comm
    · rw [if_neg hc]
      simp only [List.map_cons, List.flatten_cons, List.append_assoc]
      exact List.Perm.append_left l ih

/-- C5 helper: `insertGrouped` keeps every bucket homogeneous in its key. -/
theorem insertGrouped_homog {m : List (String × List ShoppingListItem)}
    {cat : String} {it : ShoppingListItem}
    (hh : ∀ p ∈ m, ∀ x ∈ p.2, itemCat x = p.1)
    (hit : itemCat it = cat) :
    ∀ p ∈ insertGrouped m cat it, ∀ x ∈ p.2, itemCat x = p.1 := by
  intro p hp x hx
  rcases insertGrouped_mem hp with h | ⟨h1, bl, h2, h3⟩
  · exact hh p h x hx
  · rw [h2] at hx
    rcases List.mem_append.mp hx with h4 | h4
    · rcases h3 with h3 | h3
      · exact (hh _ h3 x h4).trans h1.symm
      · rw [h3] at h4
        exact absurd h4 (List.not_mem_nil x)
    · rw [List.mem_singleton.mp h4]
      exact hit.trans h1.symm

/-- C5 helper: `insertGrouped` keeps every bucket sorted by product name
when the inserted item's name is at least every name in its bucket. -/
theorem insertGrouped_buckets_sorted {m : List (String × List ShoppingListItem)}
    {cat : String} {it : ShoppingListItem}
    (hs : ∀ p ∈ m, p.2.Sorted fun a b => a.product_name ≤ b.product_name)
    (hle : ∀ p ∈ m, p.1 = cat → ∀ x ∈ p.2, x.product_name ≤ it.product_name) :
    ∀ p ∈ insertGrouped m cat it,
      p.2.Sorted fun a b => a.product_name ≤ b.product_name := by
  intro p hp
  rcases insertGrouped_mem hp with h | ⟨h1, bl, h2, h3⟩
  · exact hs p h
  · rw [h2]
    rcases h3 with h3 | h3
    · refine (List.pairwise_append).mpr ⟨hs _ h3, List.pairwise_singleton _ _, ?_⟩
      intro a ha b hb
      rw [List.mem_singleton.mp hb]
      exact hle _ h3 rfl a ha
    · subst h3
      simp

/-- C5 helper: the fold of `groupByCategory` keeps the grouping invariants
over a category-then-name sorted input list. -/
theorem foldl_insertGrouped_invariant (l : List ShoppingListItem) :
    ∀ m : List (String × List ShoppingListItem),
      l.Pairwise itemLe →
      (∀ p ∈ m, ∀ x ∈ p.2, itemCat x = p.1) →
      ((m.map Prod.fst).Sorted (· < ·)) →
      (∀ p ∈ m, p.2.Sorted fun a b => a.product_name ≤ b.product_name) →
      (∀ y ∈ l, ∀ p ∈ m, p.1 < itemCat y ∨
        (p.1 = itemCat y ∧ ∀ x ∈ p.2, x.product_name ≤ y.product_name)) →
      (∀ p ∈ l.foldl (fun m it => insertGrouped m (itemCat it) it) m,
        ∀ x ∈ p.2, itemCat x = p.1) ∧
      (((l.foldl (fun m it => insertGrouped m (itemCat it) it) m).map
        Prod.fst).Sorted (· < ·)) ∧
      (∀ p ∈ l.foldl (fun m it => insertGrouped m (itemCat it) it) m,
        p.2.Sorted fun a b => a.product_name ≤ b.product_name) ∧
      ((l.foldl (fun m it => insertGrouped m (itemCat it) it) m).map
        Prod.snd).flatten.Perm ((m.map Prod.snd).flatten ++ l) := by
  induction l with
  | nil =>
    intro m _ hh hk hbs _
    exact ⟨hh, hk, hbs, by simp⟩
  | cons it l' ih =>
    intro m hpw hh hk hbs hbd
    obtain ⟨hit, hpw'⟩ := List.pairwise_cons.mp hpw
    have hh' : ∀ p ∈ insertGrouped m (itemCat it) it, ∀ x ∈ p.2, itemCat x = p.1 :=
      insertGrouped_homog hh rfl
    have hk' : (((insertGrouped m (itemCat it) it).map Prod.fst).Sorted (· < ·)) := by
      refine insertGrouped_keys_sorted hk fun p hp => ?_
      rcases hbd it (List.mem_cons_self _ _) p hp with h | ⟨h1, _⟩
      · exact le_of_lt h
      · exact le_of_eq h1
    have hbs' : ∀ p ∈ insertGrouped m (itemCat it) it,
        p.2.Sorted fun a b => a.product_name ≤ b.product_name := by
      refine insertGrouped_buckets_sorted hbs fun p hp he x hx => ?_
      rcases hbd it (List.mem_cons_self _ _) p hp with h | ⟨_, h2⟩
      · rw [he] at h
        exact absurd h (lt_irrefl _)
      · exact h2 x hx
    have hbd' : ∀ y ∈ l', ∀ p ∈ insertGrouped m (itemCat it) it,
        p.1 < itemCat y ∨
          (p.1 = itemCat y ∧ ∀ x ∈ p.2, x.product_name ≤ y.product_name) := by
      intro y hy p hp
      rcases insertGrouped_mem hp with hold | ⟨h1, bl, h2, h3⟩
      · exact hbd y (List.mem_cons_of_mem _ hy) p hold
      · have hity : itemLe it y := hit y hy
        simp only [itemLe, keyedLe] at hity
        by_cases hcat : itemCat it = itemCat y
        · right
          refine ⟨h1.trans hcat, ?_⟩
          intro x hx
          rw [h2] at hx
          rcases List.mem_append.mp hx with h4 | h4
          · rcases h3 with h3 | h3
            · rcases hbd y (List.mem_cons_of_mem _ hy) _ h3 with h5 | ⟨_, h6⟩
              · rw [hcat] at h5
                exact absurd h5 (lt_irrefl _)
              · exact h6 x h4
            · rw [h3] at h4
              exact absurd h4 (List.not_mem_nil x)
          · rw [List.mem_singleton.mp h4]
            rw [if_neg (by simpa using hcat)] at hity
            exact hity
        · left
          rw [h1]
          rw [if_pos hcat] at hity
          exact hity
    have res := ih (insertGrouped m (itemCat it) it) hpw' hh' hk' hbs' hbd'
    simp only [List.foldl_cons]
    refine ⟨res.1, res.2.1, res.2.2.1, ?_⟩
    refine res.2.2.2.trans ?_
    have hstep := insertGrouped_flatten_perm m (itemCat it) it
    refine (List.Perm.append_right l' hstep).trans ?_
    simp

/-- C5: for every list of shopping-list items, `groupByCategory` groups the
items by category: every item sits in the bucket of its own category key
(`category ?? "Other"`), the bucket keys occur in strictly ascending
(alphabetical, modelled as lexicographic) order, each bucket is ordered by
`product_name`, and the buckets together hold exactly the input items. -/
theorem groupByCategory_grouped_sorted (items : List ShoppingListItem) :
    (∀ p ∈ groupByCategory items, ∀ x ∈ p.2, itemCat x = p.1) ∧
    (((groupByCategory items).map Prod.fst).Sorted (· < ·)) ∧
    (∀ p ∈ groupByCategory items,
      p.2.Sorted fun a b => a.product_name ≤ b.product_name) ∧
    ((groupByCategory items).map Prod.snd).flatten.Perm items := by
  have hsorted : (items.insertionSort itemLe).Pairwise itemLe :=
    List.sorted_insertionSort itemLe items
  have h := foldl_insertGrouped_invariant (items.insertionSort itemLe) []
    hsorted (by simp) (by simp) (by simp) (by simp)
  rw [groupByCategory]
  refine ⟨h.1, h.2.1, h.2.2.1, ?_⟩
  have hflat := h.2.2.2
  simp only [List.map_nil, List.flatten_nil, List.nil_append] at hflat
  exact hflat.trans (List.perm_insertionSort itemLe items)

/-- C1 counterexample: the status type exposed through the inventory
interface (`InventoryItem.status`, rendered by `StatusBadge`) admits only
the strings "stocked", "low" and "out" — the value "calibrating", which
the claim says is exposed for products lacking purchase history, is not an
inhabitant of the interface's status type. -/
theorem inventory_no_calibrating_status :
    isInventoryStatus "calibrating" = false := by decide

/-- C1 (amended): every status exposed through the inventory interface is
one of the three enum values stocked, low, out; none of them is a
calibrating status, and each renders to a badge of the interface. -/
theorem inventory_status_three_valued :
    (∀ s : InvStatus, s = .stocked ∨ s = .low ∨ s = .out) ∧
    (∀ s : InvStatus,
      s.toName ≠ "calibrating" ∧ isInventoryStatus s.toName = true ∧
        (statusBadge s).label ≠ "") := by
  constructor
  · intro s
    cases s
    · exact Or.inl rfl
    · exact Or.inr (Or.inl rfl)
    · exact Or.inr (Or.inr rfl)
  · intro s
    cases s <;> exact ⟨by decide, by decide, by decide⟩

/-- C2: `recompute` on a product with exactly 2 purchases always returns
status calibrating, whatever the interval lengths; with exactly 3
purchases it never returns calibrating. -/
theorem recompute_calibrating_threshold (p : Product)
    (purchases : List EnginePurchase) (events : List ConsumptionEvent)
    (now : ℚ) :
    (purchases.length = 2 →
      (recompute p purchases events now).status = .calibrating) ∧
    (purchases.length = 3 →
      (recompute p purchases events now).status ≠ .calibrating) := by
  have hlen : (normalizedPurchases p purchases).length = purchases.length := by
    simp [normalizedPurchases]
  constructor
  · intro h2
    rw [recompute, if_pos (by omega)]
  · intro h3
    rw [recompute, if_neg (by omega)]
    show statusOfStock _ ≠ _
    rw [statusOfStock]
    split_ifs <;> simp

/-- C3: the auto-generated shopping-list/alert candidate set contains
exactly the products whose status is low or out, ordered by ascending
stock estimate and then by category. -/
theorem generateCandidates_spec (products : List CandidateProduct) :
    (∀ pr, pr ∈ generateCandidates products ↔
      pr ∈ products ∧ (pr.status = .low ∨ pr.status = .out)) ∧
    (generateCandidates products).Sorted candLe := by
  constructor
  · intro pr
    rw [generateCandidates, List.mem_insertionSort, List.mem_filter]
    constructor
    · rintro ⟨h1, h2⟩
      refine ⟨h1, ?_⟩
      rcases Bool.or_eq_true_iff.mp h2 with h | h
      · exact Or.inl (by simpa using h)
      · exact Or.inr (by simpa using h)
    · rintro ⟨h1, h2 | h2⟩
      · exact ⟨h1, by simp [h2]⟩
      · exact ⟨h1, by simp [h2]⟩
  · exact List.sorted_insertionSort candLe _

/-- C4: regenerating a shopping list replaces the `source=auto` items
wholesale with the freshly generated ones while the `source=manual` items
persist untouched: the manual sublist is unchanged (same ids, same
fields, same order), the auto sublist afterwards is exactly the fresh
generation, and every manual item of the old list survives. -/
theorem regenerate_frame (existing fresh : List ShoppingListItem)
    (hfresh : ∀ f ∈ fresh, f.source = "auto") :
    ((regenerate existing fresh).filter fun i => i.source == "manual")
        = (existing.filter fun i => i.source == "manual") ∧
    ((regenerate existing fresh).filter fun i => i.source == "auto")
        = fresh ∧
    (∀ i ∈ existing, i.source = "manual" → i ∈ regenerate existing fresh) := by
  refine ⟨?_, ?_, ?_⟩
  · rw [regenerate, List.filter_append]
    have h1 : (fresh.filter fun i => i.source == "manual") = [] := by
      rw [List.filter_eq_nil_iff]
      intro f hf
      simp [hfresh f hf]
    rw [h1, List.append_nil, List.filter_filter]
    apply List.filter_congr
    intro i _
    by_cases hs : i.source = "manual" <;> simp [hs]
  · rw [regenerate, List.filter_append]
    have h1 : ((existing.filter fun i => !(i.source == "auto")).filter
        fun i => i.source == "auto") = [] := by
      rw [List.filter_eq_nil_iff]
      intro f hf
      have := (List.mem_filter.mp hf).2
      simp at this ⊢
      exact this
    have h2 : (fresh.filter fun i => i.source == "auto") = fresh := by
      rw [List.filter_eq_self]
      intro f hf
      simp [hfresh f hf]
    rw [h1, h2, List.nil_append]
  · intro i hi him
    rw [regenerate]
    exact List.mem_append_left _ (List.mem_filter.mpr ⟨hi, by simp [him]⟩)

/-- C4 witness: the §8 regeneration scenario — two manual and three auto
items, regenerated against two fresh auto items. -/
theorem regenerate_frame_witness :
    ((regenerate demoExisting demoFresh).filter fun i => i.source == "manual")
        = (demoExisting.filter fun i => i.source == "manual") ∧
    ((regenerate demoExisting demoFresh).filter fun i => i.source == "auto")
        = demoFresh ∧
    (∀ i ∈ demoExisting, i.source = "manual" →
      i ∈ regenerate demoExisting demoFresh) :=
  regenerate_frame demoExisting demoFresh (by decide)

/-- C6: every shopping-list item quantity is at least 1: the add-item
flow's quantity state starts at 1 and every change event clamps the input
to at least 1, and the generator's suggested quantity (spec §4.6) has
minimum 1. -/
theorem quantity_at_least_one :
    1 ≤ initialAddQty ∧ (∀ v : ℚ, 1 ≤ addQtyUpdate v) ∧
    (∀ q m : ℚ, (1 : ℤ) ≤ suggestedQuantity q m) :=
  ⟨le_refl 1, fun v => le_max_left 1 v, fun _ _ => le_max_left 1 _⟩

/-- C7 helper: the waste ratio is never negative. -/
theorem waste_ratio_nonneg (p : Product) : 0 ≤ waste_ratio p := by
  rw [waste_ratio]
  refine div_nonneg (by positivity) ?_
  exact le_trans zero_le_one (le_max_left 1 _)

/-- C7 helper: the waste adjustment scales the threshold by a positive
factor that is independent of the profile, so it is strictly monotone in
the threshold. -/
theorem adjust_fst_lt (p : Product) {t1 t2 : ℚ} (h : t1 < t2) :
    (adjust t1 p).1 < (adjust t2 p).1 := by
  rw [adjust, adjust]
  by_cases hc : waste_ratio p > 3 / 10
  · rw [if_pos hc, if_pos hc]
    have h0 : (0 : ℚ) < 1 + waste_ratio p / 4 := by
      have := waste_ratio_nonneg p
      linarith
    exact (mul_lt_mul_right h0).mpr h
  · rw [if_neg hc, if_neg hc]
    exact h

/-- C7: with identical purchase histories and events (hence the same
baseline interval, assumed positive, and the same waste adjustment), the
household profile always yields a strictly later predicted-out date than
the perishable profile — multiplier 1.5 versus 0.85. -/
theorem household_later_than_perishable (p : Product)
    (purchases : List EnginePurchase) (events : List ConsumptionEvent)
    (now : ℚ) (h3 : 3 ≤ purchases.length)
    (hpos : 0 < baselineInterval
      ((normalizedPurchases p purchases).map Prod.fst)) :
    ∃ dh dp : ℚ,
      (recompute { p with consumption_profile := .household }
        purchases events now).predicted_out_date = some dh ∧
      (recompute { p with consumption_profile := .perishable }
        purchases events now).predicted_out_date = some dp ∧
      dp < dh := by
  have hlen : (normalizedPurchases p purchases).length = purchases.length := by
    simp [normalizedPurchases]
  have hguard : ¬ ((normalizedPurchases p purchases).length < 3) := by omega
  have hg1 : ¬ ((normalizedPurchases
      { p with consumption_profile := Profile.household } purchases).length < 3) :=
    hguard
  have hg2 : ¬ ((normalizedPurchases
      { p with consumption_profile := Profile.perishable } purchases).length < 3) :=
    hguard
  refine ⟨lastEventDate { p with consumption_profile := .household }
        purchases events
      + adjustedThreshold { p with consumption_profile := .household } purchases,
    lastEventDate { p with consumption_profile := .perishable } purchases events
      + adjustedThreshold { p with consumption_profile := .perishable } purchases,
    ?_, ?_, ?_⟩
  · rw [recompute, if_neg hg1]
  · rw [recompute, if_neg hg2]
  · have hle : lastEventDate { p with consumption_profile := Profile.perishable }
        purchases events
        = lastEventDate { p with consumption_profile := Profile.household }
            purchases events := rfl
    rw [hle]
    refine add_lt_add_left ?_ _
    have e1 : adjustedThreshold { p with consumption_profile := Profile.household }
        purchases
        = (adjust (threshold_days (baselineInterval
            ((normalizedPurchases p purchases).map Prod.fst))
            Profile.household) p).1 := rfl
    have e2 : adjustedThreshold { p with consumption_profile := Profile.perishable }
        purchases
        = (adjust (threshold_days (baselineInterval
            ((normalizedPurchases p purchases).map Prod.fst))
            Profile.perishable) p).1 := rfl
    rw [e1, e2]
    refine adjust_fst_lt p ?_
    have m1 : profileMultiplier Profile.perishable = 85 / 100 := rfl
    have m2 : profileMultiplier Profile.household = 15 / 10 := rfl
    rw [threshold_days, threshold_days, m1, m2]
    exact (mul_lt_mul_left hpos).mpr (by norm_num)

/-- C7 witness: milk-style history — purchases on days 0, 7 and 14, no
events, evaluated at day 18. -/
theorem household_later_than_perishable_witness :
    ∃ dh dp : ℚ,
      (recompute { demoProduct with consumption_profile := .household }
        demoPurchases3 [] 18).predicted_out_date = some dh ∧
      (recompute { demoProduct with consumption_profile := .perishable }
        demoPurchases3 [] 18).predicted_out_date = some dp ∧
      dp < dh :=
  household_later_than_perishable demoProduct demoPurchases3 [] 18
    (by decide)
    (by norm_num [baselineInterval, dampenOutliers, dampenAux, computeIntervals,
      median, arithMean, normalizedPurchases, normalize, demoProduct,
      demoPurchases3, List.insertionSort, List.orderedInsert])

/-- C9 witness: a two-item list, toggling the first item. -/
theorem handleCheck_atomic_witness :
    handleCheck [demoItem, demoItem2] demoItem false = [demoItem, demoItem2] ∧
    (∀ i ∈ [demoItem, demoItem2], i.id = demoItem.id →
      { i with checked := !i.checked }
        ∈ handleCheck [demoItem, demoItem2] demoItem true) ∧
    (∀ i ∈ [demoItem, demoItem2], i.id ≠ demoItem.id →
      i ∈ handleCheck [demoItem, demoItem2] demoItem true ∧
      i ∈ handleCheck [demoItem, demoItem2] demoItem false) :=
  handleCheck_atomic [demoItem, demoItem2] demoItem (by decide)

end Pantry
